import Mathlib

/-!
Shallow embedding of the NRTM4 client synchronization engine
(internal/nrtm4/service/process.go) and verification of its
specification claims.

Machine integers: the Go code uses `uint32` for versions; arithmetic that
can overflow is written with an explicit `% 2 ^ 32`.

External collaborators absent from the codebase (the `persist` data
types, the `rpsl` parser, the `jsonseq` reader, the data service) are
modelled from the specification; their definitions say so in their doc
comments.  JSON unmarshalling of raw record bytes is abstracted: a
record carries the result that `json.Unmarshal` would produce for each
target type, and the RPSL parser is a parameter (Go returns a value and
an error; we model it as a pair of the value and an optional error).
-/

namespace NRTM4

/-- The modulus of Go's `uint32` arithmetic. -/
def U32 : Nat := 2 ^ 32

/-- Modelled from the spec: `FileRef` — version (u32), url, hash
(package `persist` is not in the sources). -/
structure FileRefJSON where
  version : Nat
  url : String
  hash : String
deriving Repr, DecidableEq

/-- Modelled from the spec: common header fields of snapshot/delta files
(`persist.NrtmFileJSON`): nrtm_version, source, session_id, version. -/
structure NrtmFileJSON where
  nrtmVersion : Nat
  source : String
  sessionID : String
  version : Nat
deriving Repr, DecidableEq

/-- Modelled from the spec: the publisher's notification manifest
(`persist.NotificationJSON`).  `deltaRefs` is a nullable list in Go
(`*[]FileRefJSON`), hence an `Option`. -/
structure NotificationJSON where
  nrtmVersion : Nat
  source : String
  sessionID : String
  version : Nat
  snapshotRef : FileRefJSON
  deltaRefs : Option (List FileRefJSON)
deriving Repr, DecidableEq

/-- Modelled from the spec: the local mirror record
(`persist.NRTMSource`). -/
structure NRTMSource where
  id : Nat
  source : String
  sessionID : String
  version : Nat
  notificationURL : String
  label : String
deriving Repr, DecidableEq

/-- Modelled from the spec: a parsed RPSL object (class, primary key,
raw text).  The `rpsl` package is not in the sources; attributes beyond
identity are collapsed into the raw text. -/
structure Rpsl where
  objectClass : String
  primaryKey : String
  text : String
deriving Repr, DecidableEq

/-- Modelled from the spec: one entry inside a delta file
(`persist.DeltaJSON`).  Optional fields are pointers in Go. -/
structure DeltaJSON where
  action : String
  object : Option String
  objectClass : Option String
  primaryKey : Option String
deriving Repr, DecidableEq

/-- The error values of process.go, as an inductive type. -/
inductive ProcErr where
  | nrtmVersionMismatch
  | sourceMismatch
  | sourceNameMismatch
  | fileVersionMismatch
  | fileVersionInconsistency
  | noDeltasInNotification
  | deltaSequenceBroken
  | versionDoesNotMatchDelta
  | duplicateDeltaVersion
  | nextConsecutiveDeltaUnavailable
  | sourceAlreadyExists
  | sourceNotFound
  | downloadFailed
  | sessionChanged
  | serverRegressed
  | jsonParse (context : String)
  | rpslParse (message : String)
  | repo (message : String)
  | unknownDeltaAction (action : String)
deriving Repr, DecidableEq

/-- Go `versions[i]+1 != versions[i+1]` loop over the sorted slice
(process.go lines 464-469), `uint32` addition made explicit. -/
def contiguityBroken : List Nat → Bool
  | [] => false
  | [_] => false
  | a :: b :: rest => ((a + 1) % U32 != b) || contiguityBroken (b :: rest)

/-- `findUpdates` (process.go lines 436-476).  `util.NewSet` collects the
distinct versions, so the Go duplicate test `len(versionSet) /=
len(versions)` is the dedup-length test; `sort.Slice` ascending is
`mergeSort`; `lo`/`hi` are the first and last of the sorted slice. -/
def findUpdates (notification : NotificationJSON) (source : NRTMSource) :
    Except ProcErr (List FileRefJSON) :=
  match notification.deltaRefs with
  | none => .error .noDeltasInNotification
  | some refs =>
    if refs.length = 0 then .error .noDeltasInNotification
    else
      let deltaRefs := refs.filter (fun r => source.version < r.version)
      let versions := refs.map (fun r => r.version)
      if versions.dedup.length ≠ versions.length then
        .error .duplicateDeltaVersion
      else
        let sorted := versions.mergeSort
        let lo := sorted.headD 0
        let hi := sorted.getLastD 0
        if hi ≠ notification.version then
          .error .versionDoesNotMatchDelta
        else if contiguityBroken sorted then
          .error .deltaSequenceBroken
        else if (source.version + 1) % U32 < lo then
          .error .nextConsecutiveDeltaUnavailable
        else
          .ok deltaRefs

/-- `validateDeltaHeader` (process.go lines 417-434): `none` means the
header is valid, `some e` is the returned error. -/
def validateDeltaHeader (file : NrtmFileJSON) (source : NRTMSource)
    (deltaRef : FileRefJSON) : Option ProcErr :=
  if file.nrtmVersion ≠ 4 then some .nrtmVersionMismatch
  else if file.sessionID ≠ source.sessionID then some .sourceMismatch
  else if file.source ≠ source.source then some .sourceNameMismatch
  else if file.version ≠ deltaRef.version then some .fileVersionMismatch
  else if file.version < source.version then some .fileVersionInconsistency
  else none

/-- `rpslInsertBatchSize` (process.go line 51). -/
def rpslInsertBatchSize : Nat := 1000

/-- `RPSLObjectList.GetBatch` (process.go lines 279-288), on the list of
buffered objects (the mutex is immaterial in this sequential model):
returns the extracted batch and the remaining buffer. -/
def GetBatch (size : Nat) (objects : List Rpsl) : List Rpsl × List Rpsl :=
  if size ≤ objects.length then (objects.take size, objects.drop size)
  else ([], objects)

/-- `RPSLObjectList.GetAll` (process.go lines 291-297): returns all
buffered objects and the emptied buffer. -/
def GetAll (objects : List Rpsl) : List Rpsl × List Rpsl := (objects, [])

/-- An RPSL parser: Go's `rpsl.ParseString` returns a value and an
error; we model it as the pair.  The parser itself is out of scope
(spec: a pure function `parseRPSL(text) -> object | error`). -/
def RpslParser : Type := String → Rpsl × Option String

/-- One record of a delta file, abstracting `json.Unmarshal`: the field
holds the value unmarshalling the record's bytes into the given target
type would produce (`none` when the bytes are not valid JSON; Go's
unmarshal tolerates missing fields, so the same bytes can parse as both
a header and an entry). -/
structure DeltaRecord where
  asHeader : Option NrtmFileJSON
  asDelta : Option DeltaJSON
deriving Repr, DecidableEq

/-- The repository capability consumed by delta application, with
injectable failures (spec section 6.2; only the error behaviour matters
to the control flow of process.go). -/
structure Repo where
  saveSourceErr : NRTMSource → Option String
  addModifyErr : Rpsl → Option String
  deleteErr : String → String → Option String

/-- A repository infallible in every operation. -/
def okRepo : Repo :=
  { saveSourceErr := fun _ => none
    addModifyErr := fun _ => none
    deleteErr := fun _ _ => none }

/-- The calls delta application makes on the repository, in order. -/
inductive RepoEffect where
  | saveSource (src : NRTMSource)
  | addModify (obj : Rpsl)
  | deleteObject (objectClass primaryKey : String)
deriving Repr, DecidableEq

/-- The state threaded through `applyDeltaFunc`'s closure: the header
seen so far, the (locally mutated) source, and the trace of repository
calls. -/
structure DeltaApplyState where
  header : Option NrtmFileJSON
  source : NRTMSource
  effects : List RepoEffect
deriving Repr, DecidableEq

/-- One callback invocation of `applyDeltaFunc` (process.go lines
214-258) on a successfully framed record.  The first record is
unmarshalled as the header, validated, and the version bump is persisted
at once via `SaveSource`; later records are delta entries.  The error
returned by `repo.DeleteObject` is discarded by the Go code (line 250),
so the delete branch cannot fail. -/
def applyDeltaStep (repo : Repo) (_notification : NotificationJSON)
    (deltaRef : FileRefJSON) (parseString : RpslParser)
    (st : DeltaApplyState) (rec : DeltaRecord) :
    Except ProcErr DeltaApplyState :=
  match st.header with
  | none =>
    match rec.asHeader with
    | none => .error (.jsonParse "DeltaFileJSON")
    | some deltaHeader =>
      match validateDeltaHeader deltaHeader st.source deltaRef with
      | some e => .error e
      | none =>
        let src := { st.source with version := deltaRef.version }
        match repo.saveSourceErr src with
        | some m => .error (.repo m)
        | none =>
          .ok { header := some deltaHeader, source := src,
                effects := st.effects ++ [.saveSource src] }
  | some _ =>
    match rec.asDelta with
    | none => .error (.jsonParse "DeltaJSON")
    | some delta =>
      if delta.action = "add_modify" then
        let parsed := parseString (delta.object.getD "")
        match parsed.2 with
        | some m => .error (.rpslParse m)
        | none =>
          match repo.addModifyErr parsed.1 with
          | some m => .error (.repo m)
          | none => .ok { st with effects := st.effects ++ [.addModify parsed.1] }
      else if delta.action = "delete" then
        .ok { st with effects := st.effects ++
              [.deleteObject (delta.objectClass.getD "") (delta.primaryKey.getD "")] }
      else
        .error (.unknownDeltaAction delta.action)

/-- Feeding the framed records of a delta file to the callback in
order: `readJSONSeqRecords` stops on the first non-nil, non-EOF return
(jsonseq is modelled from the spec, section 4.2).  The state reached
before the failing record is kept alongside the error, because the
repository calls it records have already happened. -/
def applyDeltaRecords (repo : Repo) (notification : NotificationJSON)
    (deltaRef : FileRefJSON) (parseString : RpslParser) :
    DeltaApplyState → List DeltaRecord → DeltaApplyState × Option ProcErr
  | st, [] => (st, none)
  | st, rec :: rest =>
    match applyDeltaStep repo notification deltaRef parseString st rec with
    | .error e => (st, some e)
    | .ok st2 => applyDeltaRecords repo notification deltaRef parseString st2 rest

/-- Processing one whole delta file from the initial closure state. -/
def applyDeltaFile (repo : Repo) (notification : NotificationJSON)
    (deltaRef : FileRefJSON) (parseString : RpslParser)
    (source : NRTMSource) (recs : List DeltaRecord) :
    DeltaApplyState × Option ProcErr :=
  applyDeltaRecords repo notification deltaRef parseString
    { header := none, source := source, effects := [] } recs

/-- The source version the repository holds after a trace of calls:
the version of the last `SaveSource`, or the prior version when none
was made. -/
def persistedVersion (priorVersion : Nat) : List RepoEffect → Nat
  | [] => priorVersion
  | .saveSource src :: rest => persistedVersion src.version rest
  | _ :: rest => persistedVersion priorVersion rest

/-- One record of a snapshot file, abstracting `json.Unmarshal` as for
`DeltaRecord`: `asHeader` is the result of unmarshalling into
`SnapshotFileJSON`, `asObject` the `object` field of unmarshalling into
`SnapshotObjectJSON` (`none` when the bytes are not valid JSON). -/
structure SnapRecord where
  asHeader : Option NrtmFileJSON
  asObject : Option String
deriving Repr, DecidableEq

/-- `bytesToRPSL` (process.go lines 326-338): `nil` (= `none`) only when
JSON unmarshalling fails; when `rpsl.ParseString` itself fails the code
logs a warning but still returns the (zero-valued) object pointer, so
the result is `some` regardless of the RPSL parse error. -/
def bytesToRPSL (parseString : RpslParser) (rec : SnapRecord) : Option Rpsl :=
  match rec.asObject with
  | none => none
  | some text =>
    let parsed := parseString text
    some parsed.1

/-- The state threaded through `snapshotObjectInsertFunc`'s closure
(sequential model of the worker pool; the claims below are about the
per-record logic, which is identical in every interleaving of
`incrementCounters` calls): the header, the batch buffer, both
counters, the batches handed to `SaveSnapshotObjects`, and the version
persisted by the final `SaveSource`. -/
structure SnapState where
  snapshotHeader : Option NrtmFileJSON
  objectList : List Rpsl
  successfulObjects : Nat
  failedObjects : Nat
  savedBatches : List (List Rpsl)
  savedVersion : Option Nat
deriving Repr, DecidableEq

/-- `incrementCounters` (process.go lines 350-364): a non-nil parse
result is buffered and counted successful, nil is counted failed; then a
full batch, if available, is extracted and saved. -/
def incrementCounters (res : Option Rpsl) (st : SnapState) : SnapState :=
  let st :=
    match res with
    | some obj => { st with objectList := st.objectList ++ [obj],
                            successfulObjects := st.successfulObjects + 1 }
    | none => { st with failedObjects := st.failedObjects + 1 }
  let batch := GetBatch rpslInsertBatchSize st.objectList
  if batch.1.length > 0 then
    { st with objectList := batch.2, savedBatches := st.savedBatches ++ [batch.1] }
  else st

/-- One callback invocation of `snapshotObjectInsertFunc` (process.go
lines 366-414) on a successfully framed, non-final record.  The first
record (`successfulObjects == 0`) is unmarshalled as the snapshot
header; the only validation is `sf.Version != notification.SnapshotRef.Version`
(line 398).  Subsequent records are parsed and counted. -/
def snapshotStep (notification : NotificationJSON) (parseString : RpslParser)
    (st : SnapState) (rec : SnapRecord) : Except ProcErr SnapState :=
  if st.successfulObjects = 0 then
    let st := { st with successfulObjects := st.successfulObjects + 1 }
    match rec.asHeader with
    | none => .error (.jsonParse "SnapshotFileJSON")
    | some sf =>
      if sf.version ≠ notification.snapshotRef.version then
        .error .fileVersionMismatch
      else
        .ok { st with snapshotHeader := some sf }
  else
    .ok (incrementCounters (bytesToRPSL parseString rec) st)

/-- The initial state of `snapshotObjectInsertFunc`'s closure. -/
def snapInit : SnapState :=
  { snapshotHeader := none, objectList := [], successfulObjects := 0,
    failedObjects := 0, savedBatches := [], savedVersion := none }

/-- Feeding the non-final snapshot records to the callback in order,
stopping on the first error.  The state reached before the failing
record is kept alongside the error (closure-local counter bumps made on
the aborting invocation itself are unobservable after the abort and not
modelled). -/
def snapshotRecords (notification : NotificationJSON) (parseString : RpslParser) :
    SnapState → List SnapRecord → SnapState × Option ProcErr
  | st, [] => (st, none)
  | st, rec :: rest =>
    match snapshotStep notification parseString st rec with
    | .error e => (st, some e)
    | .ok st2 => snapshotRecords notification parseString st2 rest

/-- Snapshot ingestion of one file (process.go lines 340-415): the
non-final records in order, then the EOF invocation, which parses the
final bytes as one more record, drains the buffer with `GetAll` into a
last `SaveSnapshotObjects`, and persists the source at the header's
version.  (With no parsed header the Go code would dereference nil at
line 380; that path is modelled as an error.) -/
def snapshotRun (notification : NotificationJSON) (parseString : RpslParser)
    (recs : List SnapRecord) (finalRec : SnapRecord) : SnapState × Option ProcErr :=
  match snapshotRecords notification parseString snapInit recs with
  | (st, some e) => (st, some e)
  | (st, none) =>
    let st := incrementCounters (bytesToRPSL parseString finalRec) st
    let drained := GetAll st.objectList
    let st := { st with objectList := drained.2,
                        savedBatches := st.savedBatches ++ [drained.1] }
    match st.snapshotHeader with
    | some sf => ({ st with savedVersion := some sf.version }, none)
    | none => (st, some (.jsonParse "nil snapshot header"))

/-- Modelled from the spec: `getSourceByNameAndLabel` of the data
service (not in the sources) — a Source is uniquely identified by
`(source, label)`, so the lookup finds the source with that name and
label in the store. -/
def getSourceByNameAndLabel (sources : List NRTMSource) (name label : String) :
    Option NRTMSource :=
  sources.find? (fun s => s.source == name && s.label == label)

/-- `ReplaceLabel` (process.go lines 175-189) over a store modelled as a
list of sources: missing target is an error, an existing `(src,
toLabel)` source is `ErrSourceAlreadyExists`, otherwise the target's
label is replaced and the row identified by its id is updated
(`db.Update` is modelled from the spec: `update(source)` upserts the row
with the target's id). -/
def ReplaceLabel (sources : List NRTMSource) (src fromLabel toLabel : String) :
    Except ProcErr (NRTMSource × List NRTMSource) :=
  match getSourceByNameAndLabel sources src fromLabel with
  | none => .error .sourceNotFound
  | some target =>
    match getSourceByNameAndLabel sources src toLabel with
    | some _ => .error .sourceAlreadyExists
    | none =>
      let updated := { target with label := toLabel }
      .ok (updated, sources.map (fun s => if s.id == updated.id then updated else s))

/-- The checks `Update` performs before `syncDeltas` (process.go lines
123-149), as a pure decision function over the looked-up source and the
downloaded notification: `.ok none` means `Update` returns success
without applying anything, `.ok (some (n, s))` means it proceeds to
`syncDeltas n s`. -/
def UpdateFlow (source : Option NRTMSource)
    (download : Except String NotificationJSON) :
    Except ProcErr (Option (NotificationJSON × NRTMSource)) :=
  match source with
  | none => .error .sourceNotFound
  | some s =>
    match download with
    | .error _ => .error .downloadFailed
    | .ok notification =>
      if notification.sessionID ≠ s.sessionID then .error .sessionChanged
      else if notification.version < s.version then .error .serverRegressed
      else if notification.version = s.version then .ok none
      else .ok (some (notification, s))

/-- Spec-side: the greatest element of a version list (the claims'
"maximum delta version"). -/
def listMax (l : List Nat) : Nat := l.foldr max 0

/-- Spec-side: the least element of a nonempty version list (the claims'
"minimum delta version"). -/
def listMin : List Nat → Nat
  | [] => 0
  | a :: rest => rest.foldr min a

/-- Spec-side: the claims' "strictly contiguous" versions — every value
between the least and the greatest version occurs in the list. -/
def isContiguous (l : List Nat) : Prop :=
  ∀ k ≤ listMax l, listMin l ≤ k → k ∈ l

instance (l : List Nat) : Decidable (isContiguous l) := by
  unfold isContiguous; infer_instance

/-! Concrete instances used by witnesses and counterexamples. -/

/-- A concrete local source at version 5. -/
def srcEx : NRTMSource :=
  ⟨1, "EXAMPLE", "sess-1", 5, "https://example.com/notification.json", ""⟩

/-- A concrete delta file reference for version 6. -/
def refV6 : FileRefJSON := ⟨6, "https://example.com/delta.6.json", "abc"⟩

/-- A concrete notification at version 6 with snapshot version 3. -/
def notifEx : NotificationJSON :=
  ⟨4, "EXAMPLE", "sess-1", 6, ⟨3, "https://example.com/snap.3.json", "ff"⟩,
   some [refV6]⟩

/-- A concrete, valid delta header for `refV6` against `srcEx`. -/
def hdrV6 : NrtmFileJSON := ⟨4, "EXAMPLE", "sess-1", 6⟩

/-- An RPSL parser that always succeeds. -/
def idParser : RpslParser := fun text => (⟨"route", "pk", text⟩, none)

/-- The zero value of Go's `rpsl.Rpsl`. -/
def zeroRpsl : Rpsl := ⟨"", "", ""⟩

/-- An RPSL parser that fails on the text "BAD" (returning the zero
value and an error, as Go's `ParseString` does). -/
def badParser : RpslParser := fun text =>
  if text = "BAD" then (zeroRpsl, some "rpsl parse error")
  else (⟨"route", "pk", text⟩, none)

/-- A repository whose `DeleteObject` always fails. -/
def failDeleteRepo : Repo := { okRepo with deleteErr := fun _ _ => some "delete failed" }

/-- A concrete, valid snapshot header for `notifEx` (version 3). -/
def snapHdr : NrtmFileJSON := ⟨4, "EXAMPLE", "sess-1", 3⟩

/-- A snapshot header whose version matches `notifEx.snapshotRef` but
whose `nrtmVersion`, `source` and `sessionID` are all wrong for
`srcEx`. -/
def wrongSnapHdr : NrtmFileJSON := ⟨3, "WRONG", "other-sess", 3⟩

/-! ## Theorems -/

/-- C1: applying a delta file is not atomic.  Against a source at
version 5, a delta file for version 6 whose header is valid but whose
second entry has an unknown action makes delta application fail, yet
the `SaveSource` performed right after header validation has already
persisted version 6: the source's persisted version does not remain at
its value before the delta file.  (The spec itself flags this: the
version bump is committed before the body, with no enclosing
transaction.) -/
theorem applyDelta_commits_version_before_body :
    (applyDeltaFile okRepo notifEx refV6 idParser srcEx
        [⟨some hdrV6, some ⟨"", none, none, none⟩⟩,
         ⟨some ⟨0, "", "", 0⟩, some ⟨"frobnicate", none, none, none⟩⟩]).2 =
      some (.unknownDeltaAction "frobnicate") ∧
    persistedVersion srcEx.version
      (applyDeltaFile okRepo notifEx refV6 idParser srcEx
        [⟨some hdrV6, some ⟨"", none, none, none⟩⟩,
         ⟨some ⟨0, "", "", 0⟩, some ⟨"frobnicate", none, none, none⟩⟩]).1.effects =
      refV6.version ∧
    srcEx.version ≠ refV6.version := by
  exact ⟨rfl, rfl, by decide⟩

/-- C6 (code bug exhibit): `repo.DeleteObject`'s return value is
discarded (process.go line 250).  With a repository whose delete always
fails, applying a delta with a valid header and one delete entry makes
the delete call and reports no error at all, instead of aborting with
the repository's error. -/
theorem delete_error_discarded :
    failDeleteRepo.deleteErr "route" "192.0.2.0/24" = some "delete failed" ∧
    applyDeltaFile failDeleteRepo notifEx refV6 idParser srcEx
        [⟨some hdrV6, some ⟨"", none, none, none⟩⟩,
         ⟨some ⟨0, "", "", 0⟩,
          some ⟨"delete", none, some "route", some "192.0.2.0/24"⟩⟩] =
      ({ header := some hdrV6, source := { srcEx with version := 6 },
         effects := [.saveSource { srcEx with version := 6 },
                     .deleteObject "route" "192.0.2.0/24"] }, none) := by
  exact ⟨rfl, by decide⟩

/-- C5 (code bug exhibit): a snapshot record whose RPSL text fails to
parse (`badParser` fails on "BAD") is nevertheless returned as a non-nil
object by `bytesToRPSL`, so `incrementCounters` increments the success
counter, leaves the failure counter alone, and buffers the zero-valued
object, which ends up in a persisted batch — contrary to the claimed
failure counting. -/
theorem rpsl_parse_failure_counted_successful :
    (badParser "BAD").2 = some "rpsl parse error" ∧
    bytesToRPSL badParser ⟨some ⟨0, "", "", 0⟩, some "BAD"⟩ = some zeroRpsl ∧
    snapshotStep notifEx badParser
        { snapshotHeader := some snapHdr, objectList := [],
          successfulObjects := 1, failedObjects := 0, savedBatches := [],
          savedVersion := none }
        ⟨some ⟨0, "", "", 0⟩, some "BAD"⟩ =
      .ok { snapshotHeader := some snapHdr, objectList := [zeroRpsl],
            successfulObjects := 2, failedObjects := 0, savedBatches := [],
            savedVersion := none } ∧
    (snapshotRun notifEx badParser
        [⟨some snapHdr, some ""⟩, ⟨some ⟨0, "", "", 0⟩, some "BAD"⟩]
        ⟨none, none⟩).1.savedBatches = [[zeroRpsl]] := by
  refine ⟨rfl, rfl, rfl, by decide⟩

/-- C2 (counterexample): a snapshot header whose `nrtmVersion` is not 4
and whose `source` and `sessionId` match nothing is accepted as long as
its `version` equals `notification.snapshotRef.version`: ingestion
reports no error and the subsequent record is processed and persisted.
Only the version equality of the four claimed conditions is checked
(process.go line 398) — the calling source is not consulted at all. -/
theorem snapshot_header_checks_only_version_cx :
    wrongSnapHdr.nrtmVersion ≠ 4 ∧
    wrongSnapHdr.source ≠ srcEx.source ∧
    wrongSnapHdr.sessionID ≠ srcEx.sessionID ∧
    wrongSnapHdr.version = notifEx.snapshotRef.version ∧
    (snapshotRun notifEx idParser
        [⟨some wrongSnapHdr, some ""⟩, ⟨some ⟨0, "", "", 0⟩, some "obj"⟩]
        ⟨none, none⟩).2 = none ∧
    (snapshotRun notifEx idParser
        [⟨some wrongSnapHdr, some ""⟩, ⟨some ⟨0, "", "", 0⟩, some "obj"⟩]
        ⟨none, none⟩).1.savedBatches = [[⟨"route", "pk", "obj"⟩]] := by
  decide

/-- C2 (amended): the only validation of the first snapshot record is
that it unmarshals as a snapshot file header and that its version
equals `notification.snapshotRef.version`; on either failure the error
is surfaced and no subsequent record is processed (the state is still
the initial one: nothing buffered, nothing persisted); with a valid
header, processing continues on the remaining records. -/
theorem snapshot_header_validation (n : NotificationJSON) (p : RpslParser)
    (rec : SnapRecord) (rest : List SnapRecord) (finalRec : SnapRecord) :
    (rec.asHeader = none →
      snapshotRun n p (rec :: rest) finalRec =
        (snapInit, some (.jsonParse "SnapshotFileJSON"))) ∧
    (∀ sf, rec.asHeader = some sf → sf.version ≠ n.snapshotRef.version →
      snapshotRun n p (rec :: rest) finalRec =
        (snapInit, some .fileVersionMismatch)) ∧
    (∀ sf, rec.asHeader = some sf → sf.version = n.snapshotRef.version →
      snapshotRecords n p snapInit (rec :: rest) =
        snapshotRecords n p
          { snapInit with snapshotHeader := some sf, successfulObjects := 1 }
          rest) := by
  refine ⟨fun h => ?_, fun sf h hv => ?_, fun sf h hv => ?_⟩
  · simp [snapshotRun, snapshotRecords, snapshotStep, snapInit, h]
  · simp [snapshotRun, snapshotRecords, snapshotStep, snapInit, h, hv]
  · simp [snapshotRecords, snapshotStep, snapInit, h, hv]

/-- Closed instance of `snapshot_header_validation`: a header-only
snapshot stream whose header version 99 differs from
`notifEx.snapshotRef.version` = 3 aborts with `FileVersionMismatch`
and nothing is persisted. -/
theorem snapshot_header_validation_witness :
    snapshotRun notifEx idParser [⟨some ⟨4, "EXAMPLE", "sess-1", 99⟩, some ""⟩]
        ⟨none, none⟩ =
      (snapInit, some .fileVersionMismatch) :=
  (snapshot_header_validation notifEx idParser
    ⟨some ⟨4, "EXAMPLE", "sess-1", 99⟩, some ""⟩ [] ⟨none, none⟩).2.1
    ⟨4, "EXAMPLE", "sess-1", 99⟩ rfl (by decide)

/-- C7: before calling the analyzer, `Update` rejects a changed
session id, rejects a notification version below the source's, and
returns success without invoking `syncDeltas` (and without any state
mutation — `Update` performs none before this point) when the versions
are equal. -/
theorem update_precheck_spec (s : NRTMSource) (n : NotificationJSON) :
    (n.sessionID ≠ s.sessionID →
      UpdateFlow (some s) (.ok n) = .error .sessionChanged) ∧
    (n.sessionID = s.sessionID → n.version < s.version →
      UpdateFlow (some s) (.ok n) = .error .serverRegressed) ∧
    (n.sessionID = s.sessionID → n.version = s.version →
      UpdateFlow (some s) (.ok n) = .ok none) := by
  refine ⟨fun h => ?_, fun h1 h2 => ?_, fun h1 h2 => ?_⟩
  · simp [UpdateFlow, h]
  · simp [UpdateFlow, h1, h2]
  · simp [UpdateFlow, h1, h2]

/-- Closed instance of `update_precheck_spec`: a notification at the
source's own version (5) makes `Update` a no-op success. -/
theorem update_precheck_spec_witness :
    UpdateFlow (some srcEx)
        (.ok ⟨4, "EXAMPLE", "sess-1", 5, ⟨3, "u", "h"⟩, none⟩) = .ok none :=
  (update_precheck_spec srcEx ⟨4, "EXAMPLE", "sess-1", 5, ⟨3, "u", "h"⟩, none⟩).2.2
    rfl rfl

/-- C8: delta header validation succeeds exactly when the header's
`nrtmVersion` is 4, its session id and source name match the source,
its version equals the delta reference's version, and its version is
at least the source's; the first violated condition in that order
yields its protocol error; and on any validation error the delta is
not applied: processing the file stops at the first record with no
repository call made and the closure state untouched. -/
theorem validateDeltaHeader_spec (file : NrtmFileJSON) (source : NRTMSource)
    (deltaRef : FileRefJSON) :
    (validateDeltaHeader file source deltaRef = none ↔
      (file.nrtmVersion = 4 ∧ file.sessionID = source.sessionID ∧
       file.source = source.source ∧ file.version = deltaRef.version ∧
       source.version ≤ file.version)) ∧
    (file.nrtmVersion ≠ 4 →
      validateDeltaHeader file source deltaRef = some .nrtmVersionMismatch) ∧
    (file.nrtmVersion = 4 → file.sessionID ≠ source.sessionID →
      validateDeltaHeader file source deltaRef = some .sourceMismatch) ∧
    (file.nrtmVersion = 4 → file.sessionID = source.sessionID →
      file.source ≠ source.source →
      validateDeltaHeader file source deltaRef = some .sourceNameMismatch) ∧
    (file.nrtmVersion = 4 → file.sessionID = source.sessionID →
      file.source = source.source → file.version ≠ deltaRef.version →
      validateDeltaHeader file source deltaRef = some .fileVersionMismatch) ∧
    (file.nrtmVersion = 4 → file.sessionID = source.sessionID →
      file.source = source.source → file.version = deltaRef.version →
      file.version < source.version →
      validateDeltaHeader file source deltaRef = some .fileVersionInconsistency) ∧
    (∀ e, validateDeltaHeader file source deltaRef = some e →
      ∀ (repo : Repo) (n : NotificationJSON) (p : RpslParser)
        (rec : DeltaRecord) (rest : List DeltaRecord),
        rec.asHeader = some file →
        applyDeltaFile repo n deltaRef p source (rec :: rest) =
          ({ header := none, source := source, effects := [] }, some e)) := by
  refine ⟨?_, fun h1 => ?_, fun h1 h2 => ?_, fun h1 h2 h3 => ?_,
    fun h1 h2 h3 h4 => ?_, fun h1 h2 h3 h4 h5 => ?_, fun e he repo n p rec rest hrec => ?_⟩
  · unfold validateDeltaHeader
    split_ifs with h1 h2 h3 h4 h5 <;> simp_all
  · simp [validateDeltaHeader, h1]
  · simp [validateDeltaHeader, h1, h2]
  · simp [validateDeltaHeader, h1, h2, h3]
  · simp [validateDeltaHeader, h1, h2, h3, h4]
  · simp only [validateDeltaHeader, h1, h2, h3, h4]
    simp [h4 ▸ h5]
  · simp [applyDeltaFile, applyDeltaRecords, applyDeltaStep, hrec, he]

/-- Closed instance of `validateDeltaHeader_spec`: a header with
`nrtmVersion` 3 is rejected with `NRTMVersionMismatch` as the first
failing check. -/
theorem validateDeltaHeader_spec_witness :
    validateDeltaHeader ⟨3, "EXAMPLE", "sess-1", 6⟩ srcEx refV6 =
      some .nrtmVersionMismatch :=
  (validateDeltaHeader_spec ⟨3, "EXAMPLE", "sess-1", 6⟩ srcEx refV6).2.1 (by decide)

/-- C9 (counterexample): with a store holding only the source
("X", label "b"), `ReplaceLabel "X" "a" "b"` fails with the not-found
error, not with `SourceAlreadyExists`, even though a source ("X", "b")
exists — the claimed "iff" fails when the target ("X", "a") is
missing. -/
theorem replaceLabel_target_missing_cx :
    getSourceByNameAndLabel [⟨7, "X", "s", 1, "u", "b"⟩] "X" "b" =
      some ⟨7, "X", "s", 1, "u", "b"⟩ ∧
    ReplaceLabel [⟨7, "X", "s", 1, "u", "b"⟩] "X" "a" "b" =
      .error .sourceNotFound ∧
    ProcErr.sourceNotFound ≠ ProcErr.sourceAlreadyExists := by
  exact ⟨rfl, rfl, by decide⟩

/-- C9 (amended): provided the target source `(n, a)` exists (and ids
are unique, as the store's primary key guarantees), `ReplaceLabel n a b`
fails with `SourceAlreadyExists` exactly when a source `(n, b)` already
exists; and when it succeeds, only the target row changes, and only in
its label. -/
theorem replaceLabel_spec (sources : List NRTMSource) (n a b : String)
    (t : NRTMSource) (ht : getSourceByNameAndLabel sources n a = some t)
    (hids : (sources.map NRTMSource.id).Nodup) :
    (ReplaceLabel sources n a b = .error .sourceAlreadyExists ↔
      (getSourceByNameAndLabel sources n b).isSome) ∧
    (∀ t2 out, ReplaceLabel sources n a b = .ok (t2, out) →
      t2 = { t with label := b } ∧ out.length = sources.length ∧
      ∀ i (h : i < sources.length) (h2 : i < out.length),
        out[i] = if sources[i].id = t.id
                 then { sources[i] with label := b }
                 else sources[i]) := by
  have htmem : t ∈ sources := List.mem_of_find?_eq_some ht
  unfold ReplaceLabel
  rw [ht]
  cases hb : getSourceByNameAndLabel sources n b with
  | some u => simp
  | none =>
    refine ⟨by simp, fun t2 out h => ?_⟩
    have h2 : t2 = { t with label := b } ∧
        out = sources.map
          (fun s => if s.id == ({ t with label := b } : NRTMSource).id
                    then { t with label := b } else s) := by
      simpa using h.symm
    obtain ⟨ht2, hout⟩ := h2
    subst hout
    refine ⟨ht2, by simp, fun i hi hi2 => ?_⟩
    rw [List.getElem_map]
    by_cases hid : sources[i].id = t.id
    · have hsit : sources[i] = t :=
        List.inj_on_of_nodup_map hids (List.getElem_mem hi) htmem hid
      simp [hid, hsit]
    · simp [hid]

/-- Closed instance of `replaceLabel_spec`: in a store with sources
("X", "a") and ("Y", ""), relabelling ("X", "a") to "b" does not fail
with `SourceAlreadyExists`, since no source ("X", "b") exists. -/
theorem replaceLabel_spec_witness :
    ReplaceLabel [⟨1, "X", "s", 1, "u", "a"⟩, ⟨2, "Y", "s", 1, "u", ""⟩]
        "X" "a" "b" = .error .sourceAlreadyExists ↔
      (getSourceByNameAndLabel [⟨1, "X", "s", 1, "u", "a"⟩, ⟨2, "Y", "s", 1, "u", ""⟩]
        "X" "b").isSome :=
  (replaceLabel_spec [⟨1, "X", "s", 1, "u", "a"⟩, ⟨2, "Y", "s", 1, "u", ""⟩]
    "X" "a" "b" ⟨1, "X", "s", 1, "u", "a"⟩ rfl (by decide)).1

/-- C10: `GetBatch` returns the empty slice and leaves the buffer
unchanged when fewer than `n` objects are buffered; with at least `n`
buffered it returns exactly the first `n` in insertion order and
removes precisely those; `GetAll` returns everything and empties the
buffer. -/
theorem objectList_batch_spec :
    (∀ (objects : List Rpsl) (n : Nat), objects.length < n →
        GetBatch n objects = ([], objects)) ∧
    (∀ (objects : List Rpsl) (n : Nat), n ≤ objects.length →
        (GetBatch n objects).1 = objects.take n ∧
        (GetBatch n objects).1.length = n ∧
        (GetBatch n objects).1 ++ (GetBatch n objects).2 = objects) ∧
    (∀ objects : List Rpsl, GetAll objects = (objects, [])) := by
  refine ⟨fun objects n h => ?_, fun objects n h => ?_, fun objects => rfl⟩
  · unfold GetBatch
    rw [if_neg (by omega)]
  · unfold GetBatch
    rw [if_pos h]
    exact ⟨rfl, by simpa using h, List.take_append_drop n objects⟩

/-! ### List lemmas for the analyzer

`findUpdates` tests duplicates through the size of a set, finds the
bounds of the version list by sorting, and tests contiguity on adjacent
sorted elements; the claims speak of multiset properties (no duplicate
version, maximum, minimum, every value in between present).  The
following lemmas bridge the two. -/

theorem dedup_length_eq_iff_nodup (l : List Nat) :
    l.dedup.length = l.length ↔ l.Nodup := by
  constructor
  · intro h
    have heq : l.dedup = l := (List.dedup_sublist l).eq_of_length h
    exact heq ▸ l.nodup_dedup
  · intro h
    rw [List.Nodup.dedup h]

theorem foldr_min_le_init (t : List Nat) (a : Nat) : t.foldr min a ≤ a := by
  induction t with
  | nil => exact Nat.le_refl a
  | cons b r ih => exact le_trans (min_le_right b (r.foldr min a)) ih

theorem foldr_min_le_mem (t : List Nat) (a : Nat) :
    ∀ v ∈ t, t.foldr min a ≤ v := by
  induction t with
  | nil => intro v hv; cases hv
  | cons b r ih =>
    intro v hv
    rcases List.mem_cons.mp hv with rfl | hv
    · exact min_le_left v (r.foldr min a)
    · exact le_trans (min_le_right b (r.foldr min a)) (ih v hv)

theorem foldr_min_mem_cons (t : List Nat) (a : Nat) : t.foldr min a ∈ a :: t := by
  induction t with
  | nil => exact List.mem_cons_self a []
  | cons b r ih =>
    rcases min_choice b (r.foldr min a) with h | h
    · rw [List.foldr_cons, h]
      exact List.mem_cons_of_mem a (List.mem_cons_self b r)
    · rw [List.foldr_cons, h]
      rcases List.mem_cons.mp ih with h2 | h2
      · exact List.mem_cons.mpr (Or.inl h2)
      · exact List.mem_cons_of_mem a (List.mem_cons_of_mem b h2)

theorem listMin_le {l : List Nat} : ∀ v ∈ l, listMin l ≤ v := by
  cases l with
  | nil => intro v hv; cases hv
  | cons a t =>
    intro v hv
    rcases List.mem_cons.mp hv with rfl | hv
    · exact foldr_min_le_init t v
    · exact foldr_min_le_mem t a v hv

theorem listMin_mem {l : List Nat} (h : l ≠ []) : listMin l ∈ l := by
  cases l with
  | nil => exact absurd rfl h
  | cons a t => exact foldr_min_mem_cons t a

theorem le_listMax {l : List Nat} : ∀ v ∈ l, v ≤ listMax l := by
  induction l with
  | nil => intro v hv; cases hv
  | cons a t ih =>
    intro v hv
    rcases List.mem_cons.mp hv with rfl | hv
    · exact le_max_left v (listMax t)
    · exact le_trans (ih v hv) (le_max_right a (listMax t))

theorem listMax_mem {l : List Nat} (h : l ≠ []) : listMax l ∈ l := by
  induction l with
  | nil => exact absurd rfl h
  | cons a t ih =>
    cases t with
    | nil => simp [listMax]
    | cons b r =>
      rcases max_choice a (listMax (b :: r)) with h2 | h2
      · show max a (listMax (b :: r)) ∈ a :: b :: r
        rw [h2]
        exact List.mem_cons_self a (b :: r)
      · show max a (listMax (b :: r)) ∈ a :: b :: r
        rw [h2]
        exact List.mem_cons_of_mem a (ih (by simp))

theorem headD_mem {l : List Nat} (h : l ≠ []) : l.headD 0 ∈ l := by
  cases l with
  | nil => exact absurd rfl h
  | cons a t => exact List.mem_cons_self a t

theorem getLastD_mem {l : List Nat} (h : l ≠ []) (d : Nat) : l.getLastD d ∈ l := by
  cases l with
  | nil => exact absurd rfl h
  | cons a t =>
    rw [List.getLastD_cons]
    exact List.getLastD_mem_cons t a

theorem sorted_headD_le {l : List Nat} (hs : List.Sorted (· ≤ ·) l) :
    ∀ v ∈ l, l.headD 0 ≤ v := by
  cases l with
  | nil => intro v hv; cases hv
  | cons a t =>
    intro v hv
    rcases List.mem_cons.mp hv with rfl | hv
    · exact Nat.le_refl v
    · exact (List.sorted_cons.mp hs).1 v hv

theorem sorted_le_getLastD {l : List Nat} (hs : List.Sorted (· ≤ ·) l) :
    ∀ (d : Nat), ∀ v ∈ l, v ≤ l.getLastD d := by
  induction l with
  | nil => intro d v hv; cases hv
  | cons a t ih =>
    intro d v hv
    rw [List.getLastD_cons]
    rcases List.mem_cons.mp hv with rfl | hv
    · rcases List.mem_cons.mp (List.getLastD_mem_cons t v) with h2 | h2
      · rw [h2]
      · exact (List.sorted_cons.mp hs).1 _ h2
    · exact ih (List.sorted_cons.mp hs).2 a v hv

theorem mergeSort_ne_nil {vs : List Nat} (h : vs ≠ []) : vs.mergeSort ≠ [] := by
  intro hcontra
  apply h
  have hperm : vs.mergeSort.Perm vs := List.mergeSort_perm vs _
  rw [hcontra] at hperm
  exact hperm.symm.eq_nil

theorem mergeSort_headD_eq_listMin (vs : List Nat) (h : vs ≠ []) :
    vs.mergeSort.headD 0 = listMin vs := by
  have hperm : vs.mergeSort.Perm vs := List.mergeSort_perm vs _
  have hsort : List.Sorted (· ≤ ·) vs.mergeSort := List.sorted_mergeSort' vs
  apply Nat.le_antisymm
  · exact sorted_headD_le hsort _ (hperm.mem_iff.mpr (listMin_mem h))
  · exact listMin_le _ (hperm.subset (headD_mem (mergeSort_ne_nil h)))

theorem mergeSort_getLastD_eq_listMax (vs : List Nat) (h : vs ≠ []) :
    vs.mergeSort.getLastD 0 = listMax vs := by
  have hperm : vs.mergeSort.Perm vs := List.mergeSort_perm vs _
  have hsort : List.Sorted (· ≤ ·) vs.mergeSort := List.sorted_mergeSort' vs
  apply Nat.le_antisymm
  · exact le_listMax _ (hperm.subset (getLastD_mem (mergeSort_ne_nil h) 0))
  · exact sorted_le_getLastD hsort 0 _ (hperm.mem_iff.mpr (listMax_mem h))

/-- On a strictly sorted list of `uint32` values, the adjacent-pairs
check of `findUpdates` fails to fire exactly when every value between
the first and the last element occurs in the list. -/
theorem contiguityBroken_false_iff {l : List Nat} (hne : l ≠ [])
    (hs : List.Sorted (· < ·) l) (hb : ∀ v ∈ l, v < U32) :
    contiguityBroken l = false ↔
      ∀ k, l.headD 0 ≤ k → k ≤ l.getLastD 0 → k ∈ l := by
  induction l with
  | nil => exact absurd rfl hne
  | cons a t ih =>
    cases t with
    | nil =>
      constructor
      · intro _ k hk1 hk2
        have hk2a : k ≤ a := by simpa [List.getLastD] using hk2
        have : k = a := Nat.le_antisymm hk2a hk1
        simp [this]
      · intro _
        rfl
    | cons b r =>
      have hab : a < b := (List.sorted_cons.mp hs).1 b (List.mem_cons_self b r)
      have hs2 : List.Sorted (· < ·) (b :: r) := (List.sorted_cons.mp hs).2
      have hb2 : ∀ v ∈ b :: r, v < U32 := fun v hv => hb v (List.mem_cons_of_mem a hv)
      have hb32 : b < U32 := hb2 b (List.mem_cons_self b r)
      have hmod : (a + 1) % U32 = a + 1 := Nat.mod_eq_of_lt (by omega)
      have ihs := ih (by simp) hs2 hb2
      have hL : (a :: b :: r).getLastD 0 = (b :: r).getLastD 0 := by
        rw [List.getLastD_cons, List.getLastD_cons, List.getLastD_cons]
      have hunfold : contiguityBroken (a :: b :: r) =
          (((a + 1) % U32 != b) || contiguityBroken (b :: r)) := rfl
      have hsle2 : List.Sorted (· ≤ ·) (b :: r) :=
        hs2.imp (fun h => Nat.le_of_lt h)
      constructor
      · intro hfalse k hk1 hk2
        rw [hunfold, Bool.or_eq_false_iff] at hfalse
        have hadj : a + 1 = b := by
          have := hfalse.1
          rw [hmod] at this
          simpa using this
        have hrest : contiguityBroken (b :: r) = false := hfalse.2
        have hk1a : a ≤ k := hk1
        rcases Nat.eq_or_lt_of_le hk1a with rfl | hlt
        · exact List.mem_cons_self _ _
        · have hbk : b ≤ k := by omega
          have hkL : k ≤ (b :: r).getLastD 0 := by rw [hL] at hk2; exact hk2
          exact List.mem_cons_of_mem a (ihs.mp hrest k hbk hkL)
      · intro hmem
        have hbL : b ≤ (b :: r).getLastD 0 :=
          sorted_le_getLastD hsle2 0 b (List.mem_cons_self b r)
        have hadj : a + 1 = b := by
          have h1 : (a :: b :: r).headD 0 ≤ a + 1 := by
            show a ≤ a + 1
            omega
          have h2 : a + 1 ≤ (a :: b :: r).getLastD 0 := by
            rw [hL]
            omega
          have hm := hmem (a + 1) h1 h2
          rcases List.mem_cons.mp hm with h3 | h3
          · omega
          rcases List.mem_cons.mp h3 with h4 | h4
          · exact h4
          · have : b < a + 1 := (List.sorted_cons.mp hs2).1 (a + 1) h4
            omega
        have hrest : contiguityBroken (b :: r) = false := by
          apply ihs.mpr
          intro k hk1 hk2
          have hbk : b ≤ k := hk1
          have hm := hmem k (by show a ≤ k; omega) (by rw [hL]; exact hk2)
          rcases List.mem_cons.mp hm with rfl | h3
          · omega
          · exact h3
        rw [hunfold, Bool.or_eq_false_iff]
        constructor
        · rw [hmod]
          simpa using hadj
        · exact hrest

/-- The sorted-adjacent contiguity test of the code is the spec's
"strictly contiguous versions" on the unsorted version list. -/
theorem code_contiguity_iff (vs : List Nat) (hne : vs ≠ []) (hnd : vs.Nodup)
    (hb : ∀ v ∈ vs, v < U32) :
    contiguityBroken vs.mergeSort = false ↔ isContiguous vs := by
  have hperm : vs.mergeSort.Perm vs := List.mergeSort_perm vs _
  have htne : vs.mergeSort ≠ [] := mergeSort_ne_nil hne
  have hsle : List.Sorted (· ≤ ·) vs.mergeSort := List.sorted_mergeSort' vs
  have htnd : vs.mergeSort.Nodup := hperm.nodup_iff.mpr hnd
  have hslt : List.Sorted (· < ·) vs.mergeSort := hsle.lt_of_le htnd
  have htb : ∀ v ∈ vs.mergeSort, v < U32 := fun v hv => hb v (hperm.subset hv)
  rw [contiguityBroken_false_iff htne hslt htb,
    mergeSort_headD_eq_listMin vs hne, mergeSort_getLastD_eq_listMax vs hne]
  constructor
  · intro H k hk2 hk1
    exact hperm.mem_iff.mp (H k hk1 hk2)
  · intro H k hk1 hk2
    exact hperm.mem_iff.mpr (H k hk2 hk1)

/-- Unfolding `findUpdates` once the notification's delta list is
known. -/
theorem findUpdates_eq (n : NotificationJSON) (s : NRTMSource)
    (refs : List FileRefJSON) (h : n.deltaRefs = some refs) :
    findUpdates n s =
      if refs.length = 0 then .error .noDeltasInNotification
      else if (refs.map (fun r => r.version)).dedup.length ≠
          (refs.map (fun r => r.version)).length then
        .error .duplicateDeltaVersion
      else if (refs.map (fun r => r.version)).mergeSort.getLastD 0 ≠ n.version then
        .error .versionDoesNotMatchDelta
      else if contiguityBroken (refs.map (fun r => r.version)).mergeSort then
        .error .deltaSequenceBroken
      else if (s.version + 1) % U32 <
          (refs.map (fun r => r.version)).mergeSort.headD 0 then
        .error .nextConsecutiveDeltaUnavailable
      else .ok (refs.filter (fun r => s.version < r.version)) := by
  unfold findUpdates
  rw [h]

/-- C3: `findUpdates` returns exactly the error of the first failing
check, in the order: empty delta list, duplicate delta version, maximum
delta version differing from the notification's version, versions not
strictly contiguous, and the next needed delta (`source.version + 1`,
as the `uint32` the code computes) below the least offered version; and
it succeeds when `source.version + 1` equals the least offered
version. -/
theorem findUpdates_error_order (n : NotificationJSON) (s : NRTMSource)
    (refs : List FileRefJSON) (h : n.deltaRefs = some refs)
    (hvb : ∀ r ∈ refs, r.version < U32) :
    (∀ n2 : NotificationJSON, n2.deltaRefs = none →
      findUpdates n2 s = .error .noDeltasInNotification) ∧
    (refs = [] → findUpdates n s = .error .noDeltasInNotification) ∧
    (refs ≠ [] → ¬ (refs.map (fun r => r.version)).Nodup →
      findUpdates n s = .error .duplicateDeltaVersion) ∧
    (refs ≠ [] → (refs.map (fun r => r.version)).Nodup →
      listMax (refs.map (fun r => r.version)) ≠ n.version →
      findUpdates n s = .error .versionDoesNotMatchDelta) ∧
    (refs ≠ [] → (refs.map (fun r => r.version)).Nodup →
      listMax (refs.map (fun r => r.version)) = n.version →
      ¬ isContiguous (refs.map (fun r => r.version)) →
      findUpdates n s = .error .deltaSequenceBroken) ∧
    (refs ≠ [] → (refs.map (fun r => r.version)).Nodup →
      listMax (refs.map (fun r => r.version)) = n.version →
      isContiguous (refs.map (fun r => r.version)) →
      (s.version + 1) % U32 < listMin (refs.map (fun r => r.version)) →
      findUpdates n s = .error .nextConsecutiveDeltaUnavailable) ∧
    (refs ≠ [] → (refs.map (fun r => r.version)).Nodup →
      listMax (refs.map (fun r => r.version)) = n.version →
      isContiguous (refs.map (fun r => r.version)) →
      (s.version + 1) % U32 = listMin (refs.map (fun r => r.version)) →
      findUpdates n s = .ok (refs.filter (fun r => s.version < r.version))) := by
  have hbv : ∀ v ∈ refs.map (fun r => r.version), v < U32 := by
    intro v hv
    rcases List.mem_map.mp hv with ⟨r, hr, rfl⟩
    exact hvb r hr
  refine ⟨fun n2 h2 => ?_, fun hempty => ?_, fun hne hnd => ?_,
    fun hne hnd hmax => ?_, fun hne hnd hmax hcont => ?_,
    fun hne hnd hmax hcont hlo => ?_, fun hne hnd hmax hcont hlo => ?_⟩
  · unfold findUpdates
    rw [h2]
  · rw [findUpdates_eq n s refs h, if_pos (by simp [hempty])]
  · rw [findUpdates_eq n s refs h, if_neg (by simpa using hne),
      if_pos (fun hc => hnd ((dedup_length_eq_iff_nodup _).mp hc))]
  · have hvne : refs.map (fun r => r.version) ≠ [] := by
      simpa using hne
    rw [findUpdates_eq n s refs h, if_neg (by simpa using hne),
      if_neg (fun hc => hc ((dedup_length_eq_iff_nodup _).mpr hnd)),
      if_pos (by rw [mergeSort_getLastD_eq_listMax _ hvne]; exact hmax)]
  · have hvne : refs.map (fun r => r.version) ≠ [] := by
      simpa using hne
    have hbroken : contiguityBroken (refs.map (fun r => r.version)).mergeSort = true := by
      rcases Bool.eq_false_or_eq_true
          (contiguityBroken (refs.map (fun r => r.version)).mergeSort) with hc | hc
      · exact hc
      · exact absurd ((code_contiguity_iff _ hvne hnd hbv).mp hc) hcont
    rw [findUpdates_eq n s refs h, if_neg (by simpa using hne),
      if_neg (fun hc => hc ((dedup_length_eq_iff_nodup _).mpr hnd)),
      if_neg (by rw [mergeSort_getLastD_eq_listMax _ hvne]; simp [hmax]),
      if_pos (by rw [hbroken])]
  · have hvne : refs.map (fun r => r.version) ≠ [] := by
      simpa using hne
    have hbroken : contiguityBroken (refs.map (fun r => r.version)).mergeSort = false :=
      (code_contiguity_iff _ hvne hnd hbv).mpr hcont
    rw [findUpdates_eq n s refs h, if_neg (by simpa using hne),
      if_neg (fun hc => hc ((dedup_length_eq_iff_nodup _).mpr hnd)),
      if_neg (by rw [mergeSort_getLastD_eq_listMax _ hvne]; simp [hmax]),
      if_neg (by rw [hbroken]; simp),
      if_pos (by rw [mergeSort_headD_eq_listMin _ hvne]; exact hlo)]
  · have hvne : refs.map (fun r => r.version) ≠ [] := by
      simpa using hne
    have hbroken : contiguityBroken (refs.map (fun r => r.version)).mergeSort = false :=
      (code_contiguity_iff _ hvne hnd hbv).mpr hcont
    rw [findUpdates_eq n s refs h, if_neg (by simpa using hne),
      if_neg (fun hc => hc ((dedup_length_eq_iff_nodup _).mpr hnd)),
      if_neg (by rw [mergeSort_getLastD_eq_listMax _ hvne]; simp [hmax]),
      if_neg (by rw [hbroken]; simp),
      if_neg (by rw [mergeSort_headD_eq_listMin _ hvne]; omega)]

/-- Closed instance of `findUpdates_error_order`: a notification whose
delta list carries version 7 twice is rejected with
`DuplicateDeltaVersion`. -/
theorem findUpdates_error_order_witness :
    findUpdates ⟨4, "E", "s", 7, ⟨1, "u", "h"⟩,
        some [⟨7, "a", "x"⟩, ⟨7, "b", "y"⟩]⟩ srcEx =
      .error .duplicateDeltaVersion :=
  (findUpdates_error_order _ srcEx [⟨7, "a", "x"⟩, ⟨7, "b", "y"⟩] rfl
    (by decide)).2.2.1 (by decide) (by decide)

/-- C4 (counterexample): `findUpdates` does not sort its result.  With
deltaRefs listed as versions [3, 2] (notification version 3, source
version 1) every check passes and the returned list is [3, 2] — the
versions of the returned refs are not in strictly ascending order.
(The caller `syncDeltas` sorts the list afterwards, process.go line
196.) -/
theorem findUpdates_order_cx :
    findUpdates
        ⟨4, "EXAMPLE", "sess-1", 3, ⟨1, "su", "sh"⟩,
         some [⟨3, "u3", "h3"⟩, ⟨2, "u2", "h2"⟩]⟩
        { srcEx with version := 1 } =
      .ok [⟨3, "u3", "h3"⟩, ⟨2, "u2", "h2"⟩] ∧
    ¬ List.Sorted (· < ·)
        (([⟨3, "u3", "h3"⟩, ⟨2, "u2", "h2"⟩] : List FileRefJSON).map
          (fun r => r.version)) := by
  constructor
  · have hms : ([3, 2] : List Nat).mergeSort = [2, 3] :=
      List.eq_of_perm_of_sorted ((List.mergeSort_perm _ _).trans (by decide))
        (List.sorted_mergeSort' _) (by decide)
    have hmapeq : ([⟨3, "u3", "h3"⟩, ⟨2, "u2", "h2"⟩] : List FileRefJSON).map
        (fun r => r.version) = [3, 2] := rfl
    rw [findUpdates_eq _ _ [⟨3, "u3", "h3"⟩, ⟨2, "u2", "h2"⟩] rfl, hmapeq, hms]
    rfl
  · simp [List.sorted_cons]

/-- C4 (amended): whenever `findUpdates` succeeds, the returned list
consists exactly of the notification's deltaRefs whose version exceeds
the source's version, kept in notification order (the caller sorts);
in particular every returned version is greater than the source's
version and at most the notification's version. -/
theorem findUpdates_success_spec (n : NotificationJSON) (s : NRTMSource)
    (refs : List FileRefJSON) (h : n.deltaRefs = some refs)
    (l : List FileRefJSON) (hok : findUpdates n s = .ok l) :
    l = refs.filter (fun r => s.version < r.version) ∧
    ∀ r ∈ l, s.version < r.version ∧ r.version ≤ n.version := by
  rw [findUpdates_eq n s refs h] at hok
  by_cases h0 : refs.length = 0
  · rw [if_pos h0] at hok
    cases hok
  rw [if_neg h0] at hok
  by_cases h1 : (refs.map (fun r => r.version)).dedup.length ≠
      (refs.map (fun r => r.version)).length
  · rw [if_pos h1] at hok
    cases hok
  rw [if_neg h1] at hok
  by_cases h2 : (refs.map (fun r => r.version)).mergeSort.getLastD 0 ≠ n.version
  · rw [if_pos h2] at hok
    cases hok
  rw [if_neg h2] at hok
  by_cases h3 : contiguityBroken (refs.map (fun r => r.version)).mergeSort = true
  · rw [if_pos h3] at hok
    cases hok
  rw [if_neg h3] at hok
  by_cases h4 : (s.version + 1) % U32 <
      (refs.map (fun r => r.version)).mergeSort.headD 0
  · rw [if_pos h4] at hok
    cases hok
  rw [if_neg h4] at hok
  have hl : l = refs.filter (fun r => s.version < r.version) := by
    cases hok
    rfl
  refine ⟨hl, fun r hr => ?_⟩
  have hrf : r ∈ refs.filter (fun r => s.version < r.version) := hl ▸ hr
  have hlt : s.version < r.version := by
    simpa using List.of_mem_filter hrf
  have hne : refs ≠ [] := fun hc => h0 (by simp [hc])
  have hvne : refs.map (fun r => r.version) ≠ [] := by
    simpa using hne
  have hmax : listMax (refs.map (fun r => r.version)) = n.version := by
    rw [← mergeSort_getLastD_eq_listMax _ hvne]
    by_contra hc
    exact h2 hc
  refine ⟨hlt, ?_⟩
  rw [← hmax]
  exact le_listMax r.version (List.mem_map_of_mem _ (List.mem_of_mem_filter hrf))

/-- Closed instance of `findUpdates_success_spec`: against `srcEx`
(version 5), `notifEx` offering exactly delta version 6 yields the
one-element list, each returned version above 5 and at most 6. -/
theorem findUpdates_success_spec_witness :
    [refV6] = [refV6].filter (fun r => srcEx.version < r.version) ∧
    ∀ r ∈ [refV6], srcEx.version < r.version ∧ r.version ≤ notifEx.version :=
  findUpdates_success_spec notifEx srcEx [refV6] rfl [refV6]
    (by
      have hmapeq : ([refV6] : List FileRefJSON).map (fun r => r.version) = [6] :=
        rfl
      rw [findUpdates_eq notifEx srcEx [refV6] rfl, hmapeq,
        List.mergeSort_eq_self (by decide)]
      rfl)

/-- Closed instance of `objectList_batch_spec`: a buffer of one object
yields nothing for a batch of 5, and splitting a two-object buffer at 1
reassembles to the original buffer. -/
theorem objectList_batch_spec_witness :
    GetBatch 5 [zeroRpsl] = ([], [zeroRpsl]) ∧
    (GetBatch 1 [zeroRpsl, zeroRpsl]).1 ++ (GetBatch 1 [zeroRpsl, zeroRpsl]).2 =
      [zeroRpsl, zeroRpsl] :=
  ⟨objectList_batch_spec.1 [zeroRpsl] 5 (by decide),
   (objectList_batch_spec.2.1 [zeroRpsl, zeroRpsl] 1 (by decide)).2.2⟩

end NRTM4
